import Mathlib

/-!
Verification of the softmax / log-softmax CPU kernels
(aten/src/ATen/native/cpu/SoftMaxKernel.cpp) and of the CUDA fuser
interface layer (torch/csrc/jit/codegen/cuda/interface.cpp).

Modelling conventions for the kernels:
* scalar values (float, double, and the float accumulation used for
  BFloat16) are modelled as real numbers; the claims state exact
  mathematical identities, so floating-point rounding and the
  bfloat16 <-> float conversions are identities in the model;
* a tensor buffer is a function from flat index to ℝ;
* the host vector helpers (vec::reduce_all, vec::map_reduce_all,
  vec::map, vec::map2 and the Vectorized lane arithmetic) act lane-wise /
  elementwise; each C++ loop becomes a structural recursion on the
  loop counter;
* parallel_for partitions the iteration range; every output element is
  written exactly once, from data of its own slice only, so the model
  gives the value written at each flat position directly.
-/

namespace SoftMaxKernel

/-- Running maximum of `x 0, ..., x n`, as computed by the loops that
start from the element at `d = 0` and fold `vec::maximum` /
`std::max` over `d = 1, ..., n` (used by `_vec_log_softmax_lastdim`,
`_vec_softmax_lastdim` via `vec::reduce_all`, and by both branches of
`_vec_softmax`). -/
noncomputable def maxLoop (x : ℕ → ℝ) : ℕ → ℝ
  | 0 => x 0
  | n + 1 => max (maxLoop x n) (x (n + 1))

/-- The accumulation `sum += exp(x d - m)` over `d = 0, ..., n - 1`
starting from `0` (the `vec::map_reduce_all` reduction of
`_vec_log_softmax_lastdim`, and the Step-2 sum loops of `_vec_softmax`
and `_vec_logsoftmax`). -/
noncomputable def sumExpLoop (x : ℕ → ℝ) (m : ℝ) : ℕ → ℝ
  | 0 => 0
  | n + 1 => sumExpLoop x m n + Real.exp (x n - m)

/-- The vertical-maximum buffer of `_vec_logsoftmax`: initialised to
`-infinity` (modelled as `⊥ : WithBot ℝ`) and folded with
`blendv(max_vec, data_vec, data_vec > max_vec)`, i.e. the lane-wise
maximum, over `dim_idx = 0, ..., n - 1`. -/
noncomputable def blendvMaxLoop (x : ℕ → ℝ) : ℕ → WithBot ℝ
  | 0 => (⊥ : WithBot ℝ)
  | n + 1 => max (blendvMaxLoop x n) ((x n : ℝ) : WithBot ℝ)

/-- The accumulation `sum += g d` over `d = 0, ..., n - 1` (the
`vec::reduce_all` sum of `_vec_host_softmax_backward_lastdim` in
log-softmax mode). -/
noncomputable def sumLoop (g : ℕ → ℝ) : ℕ → ℝ
  | 0 => 0
  | n + 1 => sumLoop g n + g n

/-- The accumulation `sum += g d * o d` over `d = 0, ..., n - 1` (the
`vec::map2_reduce_all` reduction of `_vec_host_softmax_backward_lastdim`
in softmax mode). -/
noncomputable def map2SumLoop (g o : ℕ → ℝ) : ℕ → ℝ
  | 0 => 0
  | n + 1 => map2SumLoop g o n + g n * o n

/-- `_vec_softmax_lastdim` (SoftMaxKernel.cpp:101-139): value written at
element `k` of slice `i` (flat index `i * dim_size + k`).  The kernel
computes `max_input` by `vec::reduce_all` with `vec::maximum`, writes
`exp(x - max_input)` to the output, sums it, inverts the sum
(`tmp_sum = 1 / tmp_sum`) and multiplies the output by it. -/
noncomputable def vec_softmax_lastdim
    (input : ℕ → ℝ) (dim_size i k : ℕ) : ℝ :=
  let x : ℕ → ℝ := fun d => input (i * dim_size + d)
  let max_input := maxLoop x (dim_size - 1)
  let tmp_sum := sumExpLoop x max_input dim_size
  Real.exp (x k - max_input) * (1 / tmp_sum)

/-- `_vec_log_softmax_lastdim` (SoftMaxKernel.cpp:29-99): value written
at element `k` of slice `i`.  Slices are processed in chunks of
`CHUNK_SIZE`, but each slice's `max_input_arr[j]`, `tmp_sum_scalar[j]`
and output depend only on that slice: per slice the kernel computes the
max, the sum of `exp(x - max)`, applies `log` to the sum, and writes
`x - max - log_sum`. -/
noncomputable def vec_log_softmax_lastdim
    (input : ℕ → ℝ) (dim_size i k : ℕ) : ℝ :=
  let x : ℕ → ℝ := fun d => input (i * dim_size + d)
  let max_input := maxLoop x (dim_size - 1)
  let tmp_sum := Real.log (sumExpLoop x max_input dim_size)
  x k - max_input - tmp_sum

/-- `_vec_softmax` generic overload (SoftMaxKernel.cpp:319-400),
vectorized branch: value written at dimension index `d` of the slice at
`(outer_idx, inner_idx)`; the element of that slice at dimension `dd`
lives at flat index `outer_idx * outer_stride + dd * dim_stride +
inner_idx` with `dim_stride = inner_size` and `outer_stride = dim_size *
inner_size`.  Per lane the branch folds `vec::maximum` from `d = 0`,
stores `exp(x - max)`, accumulates the sum from `Vec(0.0)`, and divides
the stored value by the sum. -/
noncomputable def vec_softmax_vec
    (input : ℕ → ℝ) (dim_size inner_size outer_idx inner_idx d : ℕ) : ℝ :=
  let x : ℕ → ℝ := fun dd =>
    input (outer_idx * (dim_size * inner_size) + dd * inner_size + inner_idx)
  let max_input := maxLoop x (dim_size - 1)
  let sum_data := sumExpLoop x max_input dim_size
  Real.exp (x d - max_input) / sum_data

/-- `_vec_softmax` generic overload, scalar tail branch
(SoftMaxKernel.cpp:364-397): same slice layout as `vec_softmax_vec`;
the tail computes `max_input` with `std::max` from `input_data[0]`,
writes `exp(x - max_input)` while accumulating `sum_data`, then divides
each written value by `sum_data`. -/
noncomputable def vec_softmax_tail
    (input : ℕ → ℝ) (dim_size inner_size outer_idx inner_idx d : ℕ) : ℝ :=
  let x : ℕ → ℝ := fun dd =>
    input (outer_idx * (dim_size * inner_size) + dd * inner_size + inner_idx)
  let max_input := maxLoop x (dim_size - 1)
  let sum_data := sumExpLoop x max_input dim_size
  Real.exp (x d - max_input) / sum_data

/-- `_vec_softmax` BFloat16 overload (SoftMaxKernel.cpp:213-317),
vectorized branch: the input lanes are converted to float
(`convert_bfloat16_float`, identity in the real model) and cached; the
max is folded from `d = 0` with `vec::maximum`, `exp(x - max)` is
stored to a float temp buffer while summed from `Vec(0.0)`, and the
stored value divided by the sum is converted back to bfloat16. -/
noncomputable def vec_softmax_bf16_vec
    (input : ℕ → ℝ) (dim_size inner_size outer_idx inner_idx d : ℕ) : ℝ :=
  let x : ℕ → ℝ := fun dd =>
    input (outer_idx * (dim_size * inner_size) + dd * inner_size + inner_idx)
  let max_input := maxLoop x (dim_size - 1)
  let sum_data := sumExpLoop x max_input dim_size
  Real.exp (x d - max_input) / sum_data

/-- `_vec_softmax` BFloat16 overload, scalar tail branch
(SoftMaxKernel.cpp:280-314): `max_input` folded with `std::max` from
`float(input_data[0])`, `exp(x - max)` accumulated in float and stored
(rounded to bfloat16, identity in the model), then each stored value is
divided by `sum_data`. -/
noncomputable def vec_softmax_bf16_tail
    (input : ℕ → ℝ) (dim_size inner_size outer_idx inner_idx d : ℕ) : ℝ :=
  let x : ℕ → ℝ := fun dd =>
    input (outer_idx * (dim_size * inner_size) + dd * inner_size + inner_idx)
  let max_input := maxLoop x (dim_size - 1)
  let sum_data := sumExpLoop x max_input dim_size
  Real.exp (x d - max_input) / sum_data

/-- `_vec_logsoftmax` generic overload (SoftMaxKernel.cpp:412-513):
value written at `(outer_idx, dim_idx, inner_idx)` (flat index
`outer_idx * dim_size * inner_size + dim_idx * inner_size + inner_idx`).
The per-position max buffer is initialised to `-infinity` and folded
with `blendv` (vectorized positions) / a ternary max (remainder
positions), which compute the same per-position value; then the sum of
`exp(x - max)` is accumulated from `0`, `log` is applied, and
`x - max - log_sum` is written.  `WithBot.unbot' 0` extracts the real
value held by the float buffer; the buffer holds `-infinity` only when
`dim_size = 0`, in which case no output is written. -/
noncomputable def vec_logsoftmax
    (input : ℕ → ℝ) (dim_size inner_size outer_idx dim_idx inner_idx : ℕ) : ℝ :=
  let x : ℕ → ℝ := fun dd =>
    input (outer_idx * dim_size * inner_size + dd * inner_size + inner_idx)
  let max_input := (blendvMaxLoop x dim_size).unbot' 0
  x dim_idx - max_input - Real.log (sumExpLoop x max_input dim_size)

/-- `_vec_logsoftmax` BFloat16 specialization (SoftMaxKernel.cpp:515-642),
which accumulates in float: value written at
`(outer_idx, dim_idx, inner_idx)`.  `max_col` is the inner position
whose column supplied the max that the kernel subtracts at column
`inner_idx`: the scalar remainder loop stores each column's own max
(`max_col = inner_idx`), while in the vectorized loop the store at
line 576 writes `max_fvec0` into the upper half-vector slot as well, so
positions in the upper half of each 16-lane block receive the max of
the column 8 lanes to their left (`max_col = inner_idx - 8`).  In
exact arithmetic the subtracted max cancels, so the written value is
independent of `max_col` (see the C2 theorem). -/
noncomputable def vec_logsoftmax_bf16
    (input : ℕ → ℝ)
    (dim_size inner_size outer_idx dim_idx inner_idx max_col : ℕ) : ℝ :=
  let x : ℕ → ℕ → ℝ := fun dd c =>
    input (outer_idx * dim_size * inner_size + dd * inner_size + c)
  let max_input := (blendvMaxLoop (fun dd => x dd max_col) dim_size).unbot' 0
  x dim_idx inner_idx - max_input -
    Real.log (sumExpLoop (fun dd => x dd inner_idx) max_input dim_size)

/-- `_vec_host_softmax_backward_lastdim` (SoftMaxKernel.cpp:141-192):
value written at element `k` of row `i`.  In log-softmax mode the row
sum of `grad` is taken and `grad - exp(output) * sum` written; in
softmax mode the row sum of `grad * output` is taken and
`(grad - sum) * output` written. -/
noncomputable def vec_host_softmax_backward_lastdim
    (log_softmax : Bool) (grad output : ℕ → ℝ) (dim_size i k : ℕ) : ℝ :=
  let g : ℕ → ℝ := fun d => grad (i * dim_size + d)
  let o : ℕ → ℝ := fun d => output (i * dim_size + d)
  if log_softmax then
    g k - Real.exp (o k) * sumLoop g dim_size
  else
    (g k - map2SumLoop g o dim_size) * o k

/-- The softmax formula of claim C1:
`exp(x k - m) / ∑ j, exp(x j - m)` with `m` the maximum of the slice. -/
noncomputable def softmaxSpec
    (x : ℕ → ℝ) (n : ℕ) (hne : (Finset.range n).Nonempty) (k : ℕ) : ℝ :=
  Real.exp (x k - (Finset.range n).sup' hne x) /
    ∑ j ∈ Finset.range n, Real.exp (x j - (Finset.range n).sup' hne x)

/-- The log-softmax formula of claim C2:
`x k - m - log (∑ j, exp(x j - m))` with `m` the maximum of the slice. -/
noncomputable def logSoftmaxSpec
    (x : ℕ → ℝ) (n : ℕ) (hne : (Finset.range n).Nonempty) (k : ℕ) : ℝ :=
  x k - (Finset.range n).sup' hne x -
    Real.log (∑ j ∈ Finset.range n, Real.exp (x j - (Finset.range n).sup' hne x))

lemma sumExpLoop_eq (x : ℕ → ℝ) (m : ℝ) (n : ℕ) :
    sumExpLoop x m n = ∑ j ∈ Finset.range n, Real.exp (x j - m) := by
  induction n with
  | zero => simp [sumExpLoop]
  | succ n ih => rw [sumExpLoop, ih, Finset.sum_range_succ]

lemma sumLoop_eq (g : ℕ → ℝ) (n : ℕ) :
    sumLoop g n = ∑ j ∈ Finset.range n, g j := by
  induction n with
  | zero => simp [sumLoop]
  | succ n ih => rw [sumLoop, ih, Finset.sum_range_succ]

lemma map2SumLoop_eq (g o : ℕ → ℝ) (n : ℕ) :
    map2SumLoop g o n = ∑ j ∈ Finset.range n, g j * o j := by
  induction n with
  | zero => simp [map2SumLoop]
  | succ n ih => rw [map2SumLoop, ih, Finset.sum_range_succ]

lemma sumExp_pos (x : ℕ → ℝ) (m : ℝ) (n : ℕ) (hn : 0 < n) :
    0 < ∑ j ∈ Finset.range n, Real.exp (x j - m) :=
  Finset.sum_pos (fun j _ => Real.exp_pos _)
    (Finset.nonempty_range_iff.mpr hn.ne')

lemma sum_exp_shift (x : ℕ → ℝ) (a b : ℝ) (n : ℕ) :
    ∑ j ∈ Finset.range n, Real.exp (x j - a) =
      Real.exp (b - a) * ∑ j ∈ Finset.range n, Real.exp (x j - b) := by
  rw [Finset.mul_sum]
  refine Finset.sum_congr rfl fun j _ => ?_
  rw [← Real.exp_add]
  congr 1
  ring

/-- The softmax value is unchanged when the subtracted constant `a` is
replaced by any other constant `b`. -/
lemma softmax_shift (x : ℕ → ℝ) (n : ℕ) (a b : ℝ) (k : ℕ) :
    Real.exp (x k - a) / ∑ j ∈ Finset.range n, Real.exp (x j - a) =
      Real.exp (x k - b) / ∑ j ∈ Finset.range n, Real.exp (x j - b) := by
  rw [sum_exp_shift x a b n]
  have h1 : Real.exp (x k - a) = Real.exp (b - a) * Real.exp (x k - b) := by
    rw [← Real.exp_add]; congr 1; ring
  rw [h1, mul_div_mul_left _ _ (Real.exp_ne_zero _)]

/-- The log-softmax value is unchanged when the subtracted constant `a`
is replaced by any other constant `b` (requires a nonempty slice). -/
lemma logsoftmax_shift (x : ℕ → ℝ) (n : ℕ) (hn : 0 < n) (a b : ℝ) (k : ℕ) :
    x k - a - Real.log (∑ j ∈ Finset.range n, Real.exp (x j - a)) =
      x k - b - Real.log (∑ j ∈ Finset.range n, Real.exp (x j - b)) := by
  rw [sum_exp_shift x a b n,
    Real.log_mul (Real.exp_ne_zero _) (ne_of_gt (sumExp_pos x b n hn)),
    Real.log_exp]
  ring

lemma range_pos_of_nonempty {n : ℕ} (hne : (Finset.range n).Nonempty) :
    0 < n := by
  rcases hne with ⟨a, ha⟩
  exact Nat.pos_of_ne_zero fun h => by simp [h] at ha

/-- C1: every softmax forward kernel writes, at every slice and every
index `k` of the slice, `exp(x k - m) / ∑ j, exp(x j - m)` with `m` the
slice maximum; this covers the last-dim kernel, the vectorized branch
and the scalar tail branch of the general kernel, and both branches of
the BFloat16 overload. -/
theorem c1_softmax_forward_correct
    (input : ℕ → ℝ) (dim_size inner_size i outer_idx inner_idx k : ℕ)
    (hne : (Finset.range dim_size).Nonempty) :
    vec_softmax_lastdim input dim_size i k
        = softmaxSpec (fun d => input (i * dim_size + d)) dim_size hne k ∧
    vec_softmax_vec input dim_size inner_size outer_idx inner_idx k
        = softmaxSpec
            (fun d => input
              (outer_idx * (dim_size * inner_size) + d * inner_size + inner_idx))
            dim_size hne k ∧
    vec_softmax_tail input dim_size inner_size outer_idx inner_idx k
        = softmaxSpec
            (fun d => input
              (outer_idx * (dim_size * inner_size) + d * inner_size + inner_idx))
            dim_size hne k ∧
    vec_softmax_bf16_vec input dim_size inner_size outer_idx inner_idx k
        = softmaxSpec
            (fun d => input
              (outer_idx * (dim_size * inner_size) + d * inner_size + inner_idx))
            dim_size hne k ∧
    vec_softmax_bf16_tail input dim_size inner_size outer_idx inner_idx k
        = softmaxSpec
            (fun d => input
              (outer_idx * (dim_size * inner_size) + d * inner_size + inner_idx))
            dim_size hne k := by
  have h1 := softmax_shift (fun d => input (i * dim_size + d)) dim_size
    (maxLoop (fun d => input (i * dim_size + d)) (dim_size - 1))
    ((Finset.range dim_size).sup' hne (fun d => input (i * dim_size + d))) k
  have h2 := softmax_shift
    (fun d => input (outer_idx * (dim_size * inner_size) + d * inner_size + inner_idx))
    dim_size
    (maxLoop
      (fun d => input (outer_idx * (dim_size * inner_size) + d * inner_size + inner_idx))
      (dim_size - 1))
    ((Finset.range dim_size).sup' hne
      (fun d => input (outer_idx * (dim_size * inner_size) + d * inner_size + inner_idx)))
    k
  refine ⟨?_, ?_, ?_, ?_, ?_⟩ <;>
    simp only [vec_softmax_lastdim, vec_softmax_vec, vec_softmax_tail,
      vec_softmax_bf16_vec, vec_softmax_bf16_tail, softmaxSpec,
      sumExpLoop_eq, mul_one_div]
  · exact h1
  · exact h2
  · exact h2
  · exact h2
  · exact h2

/-- Witness for C1 at `input = fun _ => 0`, `dim_size = 1`. -/
theorem c1_softmax_forward_correct_witness :
    vec_softmax_lastdim (fun _ => 0) 1 0 0
      = softmaxSpec (fun d => (fun _ => (0 : ℝ)) (0 * 1 + d)) 1
          (by decide) 0 :=
  (c1_softmax_forward_correct (fun _ => 0) 1 1 0 0 0 0 (by decide)).1

/-- C2: every log-softmax forward kernel writes, at every slice and
index, `x k - m - log (∑ j, exp (x j - m))` with `m` the slice maximum;
this covers the last-dim kernel, the general-dim kernel, and the
BFloat16 specialization (whose buggy upper-half max store is captured
by the arbitrary `max_col`; the value written is nevertheless the
specified one, because the subtracted constant cancels in exact
arithmetic). -/
theorem c2_log_softmax_forward_correct
    (input : ℕ → ℝ) (dim_size inner_size i outer_idx dim_idx inner_idx max_col : ℕ)
    (hne : (Finset.range dim_size).Nonempty) :
    vec_log_softmax_lastdim input dim_size i dim_idx
        = logSoftmaxSpec (fun d => input (i * dim_size + d)) dim_size hne dim_idx ∧
    vec_logsoftmax input dim_size inner_size outer_idx dim_idx inner_idx
        = logSoftmaxSpec
            (fun d => input
              (outer_idx * dim_size * inner_size + d * inner_size + inner_idx))
            dim_size hne dim_idx ∧
    vec_logsoftmax_bf16 input dim_size inner_size outer_idx dim_idx inner_idx max_col
        = logSoftmaxSpec
            (fun d => input
              (outer_idx * dim_size * inner_size + d * inner_size + inner_idx))
            dim_size hne dim_idx := by
  have hn : 0 < dim_size := range_pos_of_nonempty hne
  have h1 := logsoftmax_shift (fun d => input (i * dim_size + d)) dim_size hn
    (maxLoop (fun d => input (i * dim_size + d)) (dim_size - 1))
    ((Finset.range dim_size).sup' hne (fun d => input (i * dim_size + d))) dim_idx
  have h2 := logsoftmax_shift
    (fun d => input (outer_idx * dim_size * inner_size + d * inner_size + inner_idx))
    dim_size hn
    ((blendvMaxLoop
        (fun dd => input (outer_idx * dim_size * inner_size + dd * inner_size + inner_idx))
        dim_size).unbot' 0)
    ((Finset.range dim_size).sup' hne
      (fun d => input (outer_idx * dim_size * inner_size + d * inner_size + inner_idx)))
    dim_idx
  have h3 := logsoftmax_shift
    (fun d => input (outer_idx * dim_size * inner_size + d * inner_size + inner_idx))
    dim_size hn
    ((blendvMaxLoop
        (fun dd => input (outer_idx * dim_size * inner_size + dd * inner_size + max_col))
        dim_size).unbot' 0)
    ((Finset.range dim_size).sup' hne
      (fun d => input (outer_idx * dim_size * inner_size + d * inner_size + inner_idx)))
    dim_idx
  refine ⟨?_, ?_, ?_⟩ <;>
    simp only [vec_log_softmax_lastdim, vec_logsoftmax, vec_logsoftmax_bf16,
      logSoftmaxSpec, sumExpLoop_eq]
  · exact h1
  · exact h2
  · exact h3

/-- Witness for C2 at `input = fun _ => 0`, `dim_size = 1`. -/
theorem c2_log_softmax_forward_correct_witness :
    vec_log_softmax_lastdim (fun _ => 0) 1 0 0
      = logSoftmaxSpec (fun d => (fun _ => (0 : ℝ)) (0 * 1 + d)) 1
          (by decide) 0 :=
  (c2_log_softmax_forward_correct (fun _ => 0) 1 1 0 0 0 0 0 (by decide)).1

/-- C3: the backward kernel writes, for every row `i` and index `k`:
in softmax mode `(grad k - S) * output k` with
`S = ∑ j, grad j * output j`, and in log-softmax mode
`grad k - exp (output k) * S` with `S = ∑ j, grad j` — the gradients of
softmax and log-softmax. -/
theorem c3_softmax_backward_correct
    (grad output : ℕ → ℝ) (dim_size i k : ℕ) :
    vec_host_softmax_backward_lastdim false grad output dim_size i k
        = (grad (i * dim_size + k) -
            ∑ j ∈ Finset.range dim_size,
              grad (i * dim_size + j) * output (i * dim_size + j)) *
          output (i * dim_size + k) ∧
    vec_host_softmax_backward_lastdim true grad output dim_size i k
        = grad (i * dim_size + k) -
            Real.exp (output (i * dim_size + k)) *
              ∑ j ∈ Finset.range dim_size, grad (i * dim_size + j) := by
  constructor
  · simp [vec_host_softmax_backward_lastdim, map2SumLoop_eq]
  · simp [vec_host_softmax_backward_lastdim, sumLoop_eq]

end SoftMaxKernel

/-!
Embedding of torch/csrc/jit/codegen/cuda/interface.cpp.

The host environment is modelled explicitly: the two environment
variables read by `NVFuserEnabler` as `Option String`, the
compile-time/runtime facts consulted by `nvfuserCanBeEnabled` as a
`FuserContext` record, and the member
`runtime_assigned_fuser_enabled_` as an `Option Bool`.  The `static`
caching of the environment-variable reads (`getCachedFuserEnabledEnvVar`,
`getCachedNNCNotNVFuser`) is invisible in the model because the
environment is a fixed value.  `TORCH_CHECK` failures are modelled as
`Except.error` with the check's message.
-/

namespace NVFuserInterface

/-- Compile-time and host-runtime facts consulted by
`NVFuserEnabler`: the `USE_ROCM` / `FBCODE_CAFFE2` build flags,
`at::globalContext().hasCUDA()`, `NVFuserPassManager::isRegistered()`
and `getExecutorMode()`. -/
structure FuserContext where
  rocm : Bool
  fbcode : Bool
  hasCUDA : Bool
  passManagerRegistered : Bool
  executorMode : Bool

/-- The two environment variables read by `NVFuserEnabler`; `none`
models an unset variable. -/
structure EnvVars where
  nncNotNVFuser : Option String
  enableNVFuser : Option String

/-- `NVFuserEnabler::nvfuserCanBeEnabled` (interface.cpp:40-47): false
on ROCm builds, otherwise `hasCUDA && isRegistered && getExecutorMode`. -/
def nvfuserCanBeEnabled (c : FuserContext) : Bool :=
  if c.rocm then false
  else c.hasCUDA && c.passManagerRegistered && c.executorMode

/-- `NVFuserEnabler::getFuserEnabledEnvVar` (interface.cpp:58-68):
`none` when `PYTORCH_JIT_ENABLE_NVFUSER` is unset, `some false` when it
is `"0"` or `"OFF"`, `some true` otherwise. -/
def getFuserEnabledEnvVar (e : EnvVars) : Option Bool :=
  match e.enableNVFuser with
  | none => none
  | some s => if s = "0" ∨ s = "OFF" then some false else some true

/-- `NVFuserEnabler::getNNCNotNVFuser` (interface.cpp:75-86): true
exactly when `PYTORCH_JIT_USE_NNC_NOT_NVFUSER` is set to `"1"` or
`"ON"`. -/
def getNNCNotNVFuser (e : EnvVars) : Bool :=
  match e.nncNotNVFuser with
  | none => false
  | some s => if s = "1" ∨ s = "ON" then true else false

/-- `NVFuserEnabler::assertFuserCanBeEnabled` (interface.cpp:49-56):
returns `true` when the `TORCH_CHECK` passes, i.e. unless
`is_enabled` holds and nvfuser cannot be enabled. -/
def assertFuserCanBeEnabled (c : FuserContext) (is_enabled : Bool) : Bool :=
  !is_enabled || nvfuserCanBeEnabled c

/-- The condition under which the `std::call_once` block of
`NVFuserEnabler::isEnabledImpl` (interface.cpp:94-100) throws: no
runtime value has been assigned, the environment variable supplies a
value, and `assertFuserCanBeEnabled` rejects that value (it is
enabling while nvfuser cannot be enabled). -/
def onceCheckFails (runtimeAssigned : Option Bool) (e : EnvVars)
    (c : FuserContext) : Bool :=
  match runtimeAssigned, getFuserEnabledEnvVar e with
  | Option.none, some b => !(assertFuserCanBeEnabled c b)
  | _, _ => false

/-- Steps 0-3 of `NVFuserEnabler::isEnabledImpl`
(interface.cpp:101-119): force-disable via
`PYTORCH_JIT_USE_NNC_NOT_NVFUSER`, then the runtime-assigned value,
then the environment value, then the build default (`false` under
`FBCODE_CAFFE2`, else `nvfuserCanBeEnabled`). -/
def isEnabledValue (runtimeAssigned : Option Bool) (e : EnvVars)
    (c : FuserContext) : Bool :=
  if getNNCNotNVFuser e then false
  else
    match runtimeAssigned with
    | some b => b
    | Option.none =>
      match getFuserEnabledEnvVar e with
      | some b => b
      | Option.none => if c.fbcode then false else nvfuserCanBeEnabled c

/-- `NVFuserEnabler::isEnabledImpl` (interface.cpp:93-120): the
`std::call_once` environment check first — which throws on first use
when its condition holds — then the value resolution.  The once-flag
needs no explicit state: an exception leaves the flag unset, and the
throwing condition requires `runtime_assigned_fuser_enabled_` to be
unset — a field that only ever moves from unset to set, while the
cached environment reads and the build facts are fixed — so if the
condition holds at some call it held at every earlier call too (none
of which can then have consumed the flag), and once a call passes the
block the condition can never hold afterwards.  Evaluating the
condition at every call is therefore observationally exact. -/
def isEnabledImpl (runtimeAssigned : Option Bool) (e : EnvVars)
    (c : FuserContext) : Except String Bool :=
  if onceCheckFails runtimeAssigned e c then
    Except.error "Running CUDA fuser is only supported on CUDA builds."
  else Except.ok (isEnabledValue runtimeAssigned e c)

/-- `NVFuserEnabler::setEnabled` (interface.cpp:123-129): runs
`assertFuserCanBeEnabled(is_enabled)`, then reads the old effective
value through `isEnabledImpl()` (line 126) — either of which throws
before the stored preference is touched — and only then stores
`is_enabled` and returns the old value.  The result pairs the
returned value (or the error) with the state of
`runtime_assigned_fuser_enabled_` after the call. -/
def setEnabled (runtimeAssigned : Option Bool) (e : EnvVars)
    (c : FuserContext) (is_enabled : Bool) :
    Except String Bool × Option Bool :=
  if is_enabled && !nvfuserCanBeEnabled c then
    (Except.error "Running CUDA fuser is only supported on CUDA builds.",
      runtimeAssigned)
  else
    match isEnabledImpl runtimeAssigned e c with
    | Except.error msg => (Except.error msg, runtimeAssigned)
    | Except.ok old_value => (Except.ok old_value, some is_enabled)

/-- The resolution order stated by claim C5, written from the claim's
words (describing the non-throwing case): false if
`PYTORCH_JIT_USE_NNC_NOT_NVFUSER` is `"1"` or `"ON"`; otherwise the
most recent `setEnabled` value if any; otherwise the value of
`PYTORCH_JIT_ENABLE_NVFUSER` (false exactly for `"0"` or `"OFF"`,
true for anything else it is set to); otherwise the build default. -/
def isEnabledSpec (runtimeAssigned : Option Bool) (e : EnvVars)
    (c : FuserContext) : Bool :=
  if e.nncNotNVFuser = some "1" ∨ e.nncNotNVFuser = some "ON" then false
  else
    match runtimeAssigned with
    | some b => b
    | none =>
      match e.enableNVFuser with
      | some s => !(decide (s = "0" ∨ s = "OFF"))
      | none => if c.fbcode then false else nvfuserCanBeEnabled c

lemma getNNCNotNVFuser_eq_true_iff (e : EnvVars) :
    getNNCNotNVFuser e = true ↔
      e.nncNotNVFuser = some "1" ∨ e.nncNotNVFuser = some "ON" := by
  cases h : e.nncNotNVFuser with
  | none => simp [getNNCNotNVFuser, h]
  | some s =>
    by_cases hs : s = "1" ∨ s = "ON" <;>
      simp [getNNCNotNVFuser, h, hs] <;> tauto

lemma onceCheckFails_true_iff (runtimeAssigned : Option Bool) (e : EnvVars)
    (c : FuserContext) :
    onceCheckFails runtimeAssigned e c = true ↔
      (runtimeAssigned = Option.none ∧
       getFuserEnabledEnvVar e = some true ∧
       nvfuserCanBeEnabled c = false) := by
  cases hra : runtimeAssigned with
  | some b => simp [onceCheckFails, hra]
  | none =>
    cases hv : getFuserEnabledEnvVar e with
    | none => simp [onceCheckFails, hra, hv]
    | some b =>
      cases b <;> cases hc : nvfuserCanBeEnabled c <;>
        simp [onceCheckFails, assertFuserCanBeEnabled, hra, hv, hc]

lemma isEnabledValue_eq_spec (runtimeAssigned : Option Bool) (e : EnvVars)
    (c : FuserContext) :
    isEnabledValue runtimeAssigned e c = isEnabledSpec runtimeAssigned e c := by
  by_cases hnnc : e.nncNotNVFuser = some "1" ∨ e.nncNotNVFuser = some "ON"
  · have h := (getNNCNotNVFuser_eq_true_iff e).mpr hnnc
    simp [isEnabledValue, isEnabledSpec, h, hnnc]
  · have h : getNNCNotNVFuser e = false := by
      cases hh : getNNCNotNVFuser e
      · rfl
      · exact absurd ((getNNCNotNVFuser_eq_true_iff e).mp hh) hnnc
    cases runtimeAssigned with
    | some b => simp [isEnabledValue, isEnabledSpec, h, hnnc]
    | none =>
      cases he : e.enableNVFuser with
      | none =>
        simp [isEnabledValue, isEnabledSpec, getFuserEnabledEnvVar, h,
          hnnc, he]
      | some s =>
        by_cases hs : s = "0" ∨ s = "OFF" <;>
          simp [isEnabledValue, isEnabledSpec, getFuserEnabledEnvVar, h,
            hnnc, he, hs]

lemma isEnabledImpl_error_iff (runtimeAssigned : Option Bool) (e : EnvVars)
    (c : FuserContext) :
    (∃ msg, isEnabledImpl runtimeAssigned e c = Except.error msg) ↔
      (runtimeAssigned = Option.none ∧
       getFuserEnabledEnvVar e = some true ∧
       nvfuserCanBeEnabled c = false) := by
  rw [← onceCheckFails_true_iff runtimeAssigned e c]
  cases h : onceCheckFails runtimeAssigned e c <;>
    simp [isEnabledImpl, h]

lemma isEnabledImpl_error_msg (runtimeAssigned : Option Bool) (e : EnvVars)
    (c : FuserContext) (msg : String)
    (h : isEnabledImpl runtimeAssigned e c = Except.error msg) :
    msg = "Running CUDA fuser is only supported on CUDA builds." := by
  unfold isEnabledImpl at h
  by_cases honce : onceCheckFails runtimeAssigned e c = true
  · rw [if_pos honce] at h
    exact (Except.error.inj h).symm
  · rw [if_neg honce] at h
    exact absurd h (by simp)

/-- C5 counterexample: with no `setEnabled` call,
`PYTORCH_JIT_ENABLE_NVFUSER="1"` and nvfuser unable to be enabled (no
CUDA), `isEnabledImpl` throws its first-use check instead of
returning the environment value `true` that the claimed resolution
order prescribes. -/
theorem c5_isEnabled_precedence_counterexample :
    isEnabledImpl Option.none ⟨Option.none, some "1"⟩
        ⟨false, false, false, false, false⟩ =
      Except.error "Running CUDA fuser is only supported on CUDA builds." ∧
    isEnabledSpec Option.none ⟨Option.none, some "1"⟩
        ⟨false, false, false, false, false⟩ = true :=
  ⟨rfl, rfl⟩

/-- C5 (amended): `isEnabledImpl` throws its first-use environment
check exactly when no runtime value is assigned,
`PYTORCH_JIT_ENABLE_NVFUSER` is set to an enabling value, and nvfuser
cannot be enabled; in every other case it returns the value resolved
in the claimed precedence order: false under the NNC force-disable
variable, else the runtime-assigned value, else the environment
value, else the build default. -/
theorem c5_isEnabled_precedence (runtimeAssigned : Option Bool)
    (e : EnvVars) (c : FuserContext) :
    ((∃ msg, isEnabledImpl runtimeAssigned e c = Except.error msg) ↔
      (runtimeAssigned = Option.none ∧
       getFuserEnabledEnvVar e = some true ∧
       nvfuserCanBeEnabled c = false)) ∧
    (¬(runtimeAssigned = Option.none ∧
       getFuserEnabledEnvVar e = some true ∧
       nvfuserCanBeEnabled c = false) →
      isEnabledImpl runtimeAssigned e c =
        Except.ok (isEnabledSpec runtimeAssigned e c)) := by
  constructor
  · exact isEnabledImpl_error_iff runtimeAssigned e c
  · intro hnot
    have h : onceCheckFails runtimeAssigned e c = false := by
      cases hh : onceCheckFails runtimeAssigned e c
      · rfl
      · exact absurd
          ((onceCheckFails_true_iff runtimeAssigned e c).mp hh) hnot
    simp [isEnabledImpl, h, isEnabledValue_eq_spec]

/-- Witness for C5 with both environment variables unset. -/
theorem c5_isEnabled_precedence_witness :
    isEnabledImpl Option.none ⟨Option.none, Option.none⟩
        ⟨false, false, false, false, false⟩ =
      Except.ok (isEnabledSpec Option.none ⟨Option.none, Option.none⟩
        ⟨false, false, false, false, false⟩) :=
  (c5_isEnabled_precedence Option.none ⟨Option.none, Option.none⟩
      ⟨false, false, false, false, false⟩).2 (by decide)

/-- C8 counterexample: `setEnabled false` with no runtime value
assigned, `PYTORCH_JIT_ENABLE_NVFUSER="1"` and nvfuser unable to be
enabled throws — from the old-value read at interface.cpp:126 — even
though `is_enabled` is false, refuting "raises an error exactly when
is_enabled is true and nvfuser cannot be enabled". -/
theorem c8_setEnabled_atomic_counterexample :
    (setEnabled Option.none ⟨Option.none, some "1"⟩
        ⟨false, false, false, false, false⟩ false).1 =
      Except.error "Running CUDA fuser is only supported on CUDA builds." :=
  rfl

/-- C8 (amended): `setEnabled is_enabled` raises an error exactly when
`is_enabled` is true and nvfuser cannot be enabled, or the old-value
read (`isEnabledImpl`, interface.cpp:126) throws its first-use check
(no runtime value assigned, enabling environment value, nvfuser
cannot be enabled); on any error the stored runtime preference is
left unchanged, so a subsequent `isEnabled` behaves as before the
failed call (atomicity); on success it records `is_enabled` and
returns the previous effective value. -/
theorem c8_setEnabled_atomic (runtimeAssigned : Option Bool) (e : EnvVars)
    (c : FuserContext) (is_enabled : Bool) :
    ((∃ msg, (setEnabled runtimeAssigned e c is_enabled).1 =
        Except.error msg) ↔
      ((is_enabled = true ∧ nvfuserCanBeEnabled c = false) ∨
       (runtimeAssigned = Option.none ∧
        getFuserEnabledEnvVar e = some true ∧
        nvfuserCanBeEnabled c = false))) ∧
    ((∃ msg, (setEnabled runtimeAssigned e c is_enabled).1 =
        Except.error msg) →
      (setEnabled runtimeAssigned e c is_enabled).2 = runtimeAssigned ∧
      isEnabledImpl (setEnabled runtimeAssigned e c is_enabled).2 e c =
        isEnabledImpl runtimeAssigned e c) ∧
    (¬((is_enabled = true ∧ nvfuserCanBeEnabled c = false) ∨
       (runtimeAssigned = Option.none ∧
        getFuserEnabledEnvVar e = some true ∧
        nvfuserCanBeEnabled c = false)) →
      (setEnabled runtimeAssigned e c is_enabled).1 =
        Except.ok (isEnabledSpec runtimeAssigned e c) ∧
      (setEnabled runtimeAssigned e c is_enabled).2 = some is_enabled) := by
  by_cases hassert : (is_enabled && !nvfuserCanBeEnabled c) = true
  · have hA : is_enabled = true ∧ nvfuserCanBeEnabled c = false := by
      cases is_enabled <;> cases hc : nvfuserCanBeEnabled c <;> simp_all
    refine ⟨?_, ?_, ?_⟩
    · constructor
      · intro _
        exact Or.inl hA
      · intro _
        exact ⟨"Running CUDA fuser is only supported on CUDA builds.",
          by simp [setEnabled, hassert]⟩
    · intro _
      constructor
      · simp [setEnabled, hassert]
      · simp [setEnabled, hassert]
    · intro hcon
      exact absurd (Or.inl hA) hcon
  · have hpass : (is_enabled && !nvfuserCanBeEnabled c) = false :=
      Bool.eq_false_iff.mpr hassert
    have hnotA : ¬(is_enabled = true ∧ nvfuserCanBeEnabled c = false) := by
      cases is_enabled <;> cases hc : nvfuserCanBeEnabled c <;> simp_all
    by_cases honce : onceCheckFails runtimeAssigned e c = true
    · have hB := (onceCheckFails_true_iff runtimeAssigned e c).mp honce
      have himpl : isEnabledImpl runtimeAssigned e c =
          Except.error
            "Running CUDA fuser is only supported on CUDA builds." := by
        simp [isEnabledImpl, honce]
      refine ⟨?_, ?_, ?_⟩
      · constructor
        · intro _
          exact Or.inr hB
        · intro _
          exact ⟨"Running CUDA fuser is only supported on CUDA builds.",
            by simp [setEnabled, hpass, himpl]⟩
      · intro _
        constructor
        · simp [setEnabled, hpass, himpl]
        · simp [setEnabled, hpass, himpl]
      · intro hcon
        exact absurd (Or.inr hB) hcon
    · have honce' : onceCheckFails runtimeAssigned e c = false :=
        Bool.eq_false_iff.mpr honce
      have hnotB : ¬(runtimeAssigned = Option.none ∧
          getFuserEnabledEnvVar e = some true ∧
          nvfuserCanBeEnabled c = false) :=
        fun hB =>
          honce ((onceCheckFails_true_iff runtimeAssigned e c).mpr hB)
      have himpl : isEnabledImpl runtimeAssigned e c =
          Except.ok (isEnabledValue runtimeAssigned e c) := by
        simp [isEnabledImpl, honce']
      refine ⟨?_, ?_, ?_⟩
      · constructor
        · rintro ⟨msg, hmsg⟩
          simp [setEnabled, hpass, himpl] at hmsg
        · rintro (hA | hB)
          · exact absurd hA hnotA
          · exact absurd hB hnotB
      · rintro ⟨msg, hmsg⟩
        simp [setEnabled, hpass, himpl] at hmsg
      · intro _
        constructor
        · simp [setEnabled, hpass, himpl, isEnabledValue_eq_spec]
        · simp [setEnabled, hpass, himpl]

/-- Witness for C8: with no CUDA available, `setEnabled true` fails
and leaves the stored preference (here: unset) unchanged. -/
theorem c8_setEnabled_atomic_witness :
    (setEnabled Option.none ⟨Option.none, Option.none⟩
        ⟨false, false, false, false, false⟩ true).2 = Option.none ∧
    isEnabledImpl
        (setEnabled Option.none ⟨Option.none, Option.none⟩
          ⟨false, false, false, false, false⟩ true).2
        ⟨Option.none, Option.none⟩ ⟨false, false, false, false, false⟩ =
      isEnabledImpl Option.none ⟨Option.none, Option.none⟩
        ⟨false, false, false, false, false⟩ :=
  (c8_setEnabled_atomic Option.none ⟨Option.none, Option.none⟩
      ⟨false, false, false, false, false⟩ true).2.1
    ⟨"Running CUDA fuser is only supported on CUDA builds.", rfl⟩

/-- The CUDA fuser interface function-pointer table
(`CudaFuserInterface`, populated only in CUDA builds); a null pointer
is `none`.  Node, stack and graph values are abstract. -/
structure CudaFuserIfc (Node Stack Graph : Type) where
  fn_compile_n : Option (Node → Node)
  fn_run_n_s : Option (Node → Stack → Stack)
  fn_fuse_graph : Option (Graph → Graph)

/-- `compileFusionGroup` (interface.cpp:176-181): `TORCH_CHECK` that
`fn_compile_n` is non-null, then delegate to it. -/
def compileFusionGroup {Node Stack Graph : Type}
    (fi : CudaFuserIfc Node Stack Graph) (fusion_node : Node) :
    Except String Node :=
  match fi.fn_compile_n with
  | none => Except.error "Running the CUDA fuser requires a CUDA build."
  | some f => Except.ok (f fusion_node)

/-- `runFusionGroup` (interface.cpp:183-188): `TORCH_CHECK` that
`fn_run_n_s` is non-null, then delegate to it. -/
def runFusionGroup {Node Stack Graph : Type}
    (fi : CudaFuserIfc Node Stack Graph) (fusion_node : Node)
    (stack : Stack) : Except String Stack :=
  match fi.fn_run_n_s with
  | none => Except.error "Running the CUDA fuser requires a CUDA build."
  | some f => Except.ok (f fusion_node stack)

/-- `fuseGraph` (interface.cpp:190-199): calls `isEnabled()` — whose
first-use environment check may throw, propagating its own error —
returns immediately when it yields false, and otherwise `TORCH_CHECK`s
that `fn_fuse_graph` is non-null before delegating to it. -/
def fuseGraph {Node Stack Graph : Type}
    (fi : CudaFuserIfc Node Stack Graph) (runtimeAssigned : Option Bool)
    (e : EnvVars) (c : FuserContext) (graph : Graph) :
    Except String Graph :=
  match isEnabledImpl runtimeAssigned e c with
  | Except.error msg => Except.error msg
  | Except.ok enabled =>
    if !enabled then Except.ok graph
    else
      match fi.fn_fuse_graph with
      | Option.none =>
        Except.error "Running the CUDA fuser requires a CUDA build."
      | some f => Except.ok (f graph)

/-- C7: `compileFusionGroup` and `runFusionGroup` raise the
CUDA-build error if and only if the corresponding function pointer is
null, and otherwise delegate to it; `fuseGraph` raises that error
exactly when `isEnabled()` returns true and `fn_fuse_graph` is null
(when `isEnabled()` itself throws, its different error is propagated
instead), and returns the graph unchanged when `isEnabled()` returns
false. -/
theorem c7_interface_null_checks {Node Stack Graph : Type}
    (fi : CudaFuserIfc Node Stack Graph) (fusion_node : Node)
    (stack : Stack) (runtimeAssigned : Option Bool) (e : EnvVars)
    (c : FuserContext) (graph : Graph) :
    (compileFusionGroup fi fusion_node =
        Except.error "Running the CUDA fuser requires a CUDA build." ↔
      fi.fn_compile_n = none) ∧
    (∀ f, fi.fn_compile_n = some f →
      compileFusionGroup fi fusion_node = Except.ok (f fusion_node)) ∧
    (runFusionGroup fi fusion_node stack =
        Except.error "Running the CUDA fuser requires a CUDA build." ↔
      fi.fn_run_n_s = none) ∧
    (∀ f, fi.fn_run_n_s = some f →
      runFusionGroup fi fusion_node stack = Except.ok (f fusion_node stack)) ∧
    (fuseGraph fi runtimeAssigned e c graph =
        Except.error "Running the CUDA fuser requires a CUDA build." ↔
      (isEnabledImpl runtimeAssigned e c = Except.ok true ∧
       fi.fn_fuse_graph = none)) ∧
    (isEnabledImpl runtimeAssigned e c = Except.ok false →
      fuseGraph fi runtimeAssigned e c graph = Except.ok graph) ∧
    (∀ f, fi.fn_fuse_graph = some f →
      isEnabledImpl runtimeAssigned e c = Except.ok true →
      fuseGraph fi runtimeAssigned e c graph = Except.ok (f graph)) := by
  refine ⟨?_, ?_, ?_, ?_, ?_, ?_, ?_⟩
  · cases h : fi.fn_compile_n <;> simp [compileFusionGroup, h]
  · intro f hf
    simp [compileFusionGroup, hf]
  · cases h : fi.fn_run_n_s <;> simp [runFusionGroup, h]
  · intro f hf
    simp [runFusionGroup, hf]
  · cases himpl : isEnabledImpl runtimeAssigned e c with
    | error msg =>
      have hmsg := isEnabledImpl_error_msg runtimeAssigned e c msg himpl
      subst hmsg
      refine iff_of_false (fun hcontra => ?_) (fun hcontra => ?_)
      · have hred : fuseGraph fi runtimeAssigned e c graph =
            Except.error
              "Running CUDA fuser is only supported on CUDA builds." := by
          simp [fuseGraph, himpl]
        rw [hred] at hcontra
        exact absurd (Except.error.inj hcontra) (by decide)
      · exact absurd hcontra.1 (by simp)
    | ok enabled =>
      cases enabled
      · simp [fuseGraph, himpl]
      · cases h : fi.fn_fuse_graph <;> simp [fuseGraph, himpl, h]
  · intro himpl
    simp [fuseGraph, himpl]
  · intro f hf himpl
    simp [fuseGraph, himpl, hf]

/-- Witness for C7: an all-null interface (a non-CUDA build) errors on
compile. -/
theorem c7_interface_null_checks_witness :
    compileFusionGroup (⟨Option.none, Option.none, Option.none⟩ :
        CudaFuserIfc ℕ ℕ ℕ) 0 =
      Except.error "Running the CUDA fuser requires a CUDA build." :=
  (c7_interface_null_checks (⟨Option.none, Option.none, Option.none⟩ :
        CudaFuserIfc ℕ ℕ ℕ) 0 0
      Option.none ⟨Option.none, Option.none⟩
      ⟨false, false, false, false, false⟩ 0).1.mpr rfl

end NVFuserInterface

/-!
Embedding of `complyWith` (interface.cpp:259-364), the type-guard of
`prim::CudaFusionGuard`.

A runtime tensor carries its sizes, strides, scalar type, device and
requires-grad flag (scalar types and devices are opaque codes).  A
profiled guard `TensorType` carries a rank, optional scalar
type/device/requires-grad, and per-dimension optional size,
stride-index and contiguity observations (modelled as functions of the
dimension, since the C++ accesses them only at `j < dim`).  Indexing a
tensor's size/stride list out of range (undefined behaviour in C++,
e.g. through `inner_dim` when it is `-1`) is modelled by a default of
`0`.  `TORCH_INTERNAL_ASSERT` failure is a distinguished outcome
(`CheckRes.trip` / result `none`), not a boolean return.
-/

namespace CudaFusionGuard

/-- A runtime `at::Tensor`, as consulted by `complyWith`. -/
structure RTensor where
  sizes : List Int
  strides : List Int
  scalarType : ℕ
  device : ℕ
  requires_grad : Bool
deriving DecidableEq

def RTensor.ndimension (t : RTensor) : ℕ := t.sizes.length

def RTensor.sizeAt (t : RTensor) (j : ℕ) : Int := t.sizes.getD j 0

def RTensor.strideAt (t : RTensor) (j : ℕ) : Int := t.strides.getD j 0

/-- A profiled guard `c10::TensorType` (its `dim()` is asserted to have
a value at entry of `complyWith`, so the rank is plain). -/
structure GuardTensorType where
  dim : ℕ
  scalarType : Option ℕ
  device : Option ℕ
  requiresGrad : Option Bool
  sizes : ℕ → Option Int
  strideIndex : ℕ → Option ℕ
  contiguous : ℕ → Option Bool

/-- Check a of `complyWith` (interface.cpp:266-276): rank, scalar type,
device, and effective requires-grad
(`tensor.requires_grad() && at::GradMode::is_enabled()`). -/
def headerMismatch (t : RTensor) (g : GuardTensorType) (gradMode : Bool) : Bool :=
  decide (g.dim ≠ t.ndimension) ||
  (match g.scalarType with
   | some x => decide (x ≠ t.scalarType)
   | none => false) ||
  (match g.device with
   | some x => decide (x ≠ t.device)
   | none => false) ||
  (match g.requiresGrad with
   | some b => decide (b ≠ (t.requires_grad && gradMode))
   | none => false)

/-- Check b.1 of `complyWith` (interface.cpp:300-309): stride order,
applied when not at the first iteration and an inner dimension has been
seen, ignoring 0-stride dimensions. -/
def strideOrderViolation (t : RTensor) (inner_dim : Int) (s j : ℕ) : Bool :=
  decide (j ≠ 0 ∧ inner_dim ≠ -1 ∧
    t.strideAt s ≠ 0 ∧ t.strideAt inner_dim.toNat ≠ 0 ∧
    t.strideAt s < t.strideAt inner_dim.toNat)

/-- Outcome of check b.2 (contiguity). -/
inductive CheckRes where
  | ok : CheckRes
  | fail : CheckRes
  | trip : CheckRes
deriving DecidableEq

/-- Check b.2 of `complyWith` (interface.cpp:313-335): contiguity,
checked only when the guard marks dimension `j` contiguous; at `j = 0`
the stride must be 1, otherwise a non-size-1 non-stride-1 dimension
must have stride equal to `stride(inner) * size(inner)`, after the
`TORCH_INTERNAL_ASSERT` that dimension `j - 1` carries a stride index
(`CheckRes.trip` models that assertion failing). -/
def contigCheck (t : RTensor) (g : GuardTensorType) (inner_dim : Int)
    (s j : ℕ) : CheckRes :=
  if g.contiguous j = some true then
    if j ≠ 0 then
      if t.sizeAt s ≠ 1 ∧ t.strideAt s ≠ 1 then
        if (g.strideIndex (j - 1)).isSome then
          if t.strideAt s ≠ t.strideAt inner_dim.toNat * t.sizeAt inner_dim.toNat
          then CheckRes.fail
          else CheckRes.ok
        else CheckRes.trip
      else CheckRes.ok
    else
      if t.strideAt s ≠ 1 then CheckRes.fail else CheckRes.ok
  else CheckRes.ok

/-- The `inner_dim` update of `complyWith` (interface.cpp:337-347):
performed only when dimension `j` carries a stride index, and skipped
for size-1 dimensions once an inner dimension exists. -/
def innerUpdate (t : RTensor) (g : GuardTensorType) (j : ℕ)
    (inner_dim : Int) : Int :=
  match g.strideIndex j with
  | none => inner_dim
  | some s => if inner_dim = -1 ∨ t.sizeAt s ≠ 1 then (s : Int) else inner_dim

/-- Check c.1 of `complyWith` (interface.cpp:350-354): the size-1
(broadcast) status of dimension `j` must agree between guard and
tensor. -/
def bcastMatch (t : RTensor) (g : GuardTensorType) (j : ℕ) : Bool :=
  decide (g.sizes j = some 1) == decide (t.sizeAt j = 1)

/-- Check c.2 of `complyWith` (interface.cpp:356-360): the size-0
status of dimension `j` must agree between guard and tensor. -/
def size0Match (t : RTensor) (g : GuardTensorType) (j : ℕ) : Bool :=
  decide (g.sizes j = some 0) == decide (t.sizeAt j = 0)

/-- Outcome of one iteration of the dimension loop of `complyWith`. -/
inductive StepOut where
  | retFalse : StepOut
  | trip : StepOut
  | next : Int → StepOut
deriving DecidableEq

/-- One iteration of the dimension loop of `complyWith`
(interface.cpp:287-361), in source order: stride-order check, then
contiguity check, then the `inner_dim` update (all only when dimension
`j` carries a stride index), then the broadcast and size-0 checks. -/
def complyStep (t : RTensor) (g : GuardTensorType) (j : ℕ)
    (inner_dim : Int) : StepOut :=
  match g.strideIndex j with
  | none =>
    if bcastMatch t g j then
      if size0Match t g j then StepOut.next inner_dim else StepOut.retFalse
    else StepOut.retFalse
  | some s =>
    if strideOrderViolation t inner_dim s j then StepOut.retFalse
    else
      match contigCheck t g inner_dim s j with
      | CheckRes.fail => StepOut.retFalse
      | CheckRes.trip => StepOut.trip
      | CheckRes.ok =>
        if bcastMatch t g j then
          if size0Match t g j then StepOut.next (innerUpdate t g j inner_dim)
          else StepOut.retFalse
        else StepOut.retFalse

/-- The dimension loop of `complyWith`: `k` remaining iterations
starting at dimension `j` with the given `inner_dim`; `some b` is a
`return b`, `none` an internal assertion failure. -/
def complyLoop (t : RTensor) (g : GuardTensorType) :
    ℕ → ℕ → Int → Option Bool
  | 0, _, _ => some true
  | k + 1, j, inner_dim =>
    match complyStep t g j inner_dim with
    | StepOut.retFalse => some false
    | StepOut.trip => none
    | StepOut.next inner2 => complyLoop t g k (j + 1) inner2

/-- `complyWith` (interface.cpp:259-364): header checks, then the
dimension loop over `j < dim` with `inner_dim` starting at `-1`. -/
def complyWith (t : RTensor) (g : GuardTensorType) (gradMode : Bool) :
    Option Bool :=
  if headerMismatch t g gradMode then some false
  else complyLoop t g g.dim 0 (-1)

/-- The value of `inner_dim` at entry of iteration `j` of the loop. -/
def innerDimAt (t : RTensor) (g : GuardTensorType) : ℕ → Int
  | 0 => -1
  | j + 1 => innerUpdate t g j (innerDimAt t g j)

/-- All per-dimension checks of `complyWith` pass at dimension `j`:
agreement of the size-1 and size-0 statuses, and (when the guard has a
stride index for `j`) the stride-order and contiguity checks. -/
def dimOk (t : RTensor) (g : GuardTensorType) (j : ℕ) : Prop :=
  ((g.sizes j = some 1) ↔ t.sizeAt j = 1) ∧
  ((g.sizes j = some 0) ↔ t.sizeAt j = 0) ∧
  (∀ s, g.strideIndex j = some s →
    strideOrderViolation t (innerDimAt t g j) s j = false ∧
    contigCheck t g (innerDimAt t g j) s j = CheckRes.ok)

/-- Iteration `j` falls through to the next dimension. -/
def stepSucceeds (t : RTensor) (g : GuardTensorType) (j : ℕ) : Prop :=
  complyStep t g j (innerDimAt t g j) =
    StepOut.next (innerUpdate t g j (innerDimAt t g j))

lemma beq_decide_iff {P Q : Prop} [Decidable P] [Decidable Q] :
    (decide P == decide Q) = true ↔ (P ↔ Q) := by
  by_cases hP : P <;> by_cases hQ : Q <;> simp [hP, hQ]

lemma bcastMatch_true_iff (t : RTensor) (g : GuardTensorType) (j : ℕ) :
    bcastMatch t g j = true ↔ ((g.sizes j = some 1) ↔ t.sizeAt j = 1) :=
  beq_decide_iff

lemma size0Match_true_iff (t : RTensor) (g : GuardTensorType) (j : ℕ) :
    size0Match t g j = true ↔ ((g.sizes j = some 0) ↔ t.sizeAt j = 0) :=
  beq_decide_iff

lemma stepSucceeds_iff (t : RTensor) (g : GuardTensorType) (j : ℕ) :
    stepSucceeds t g j ↔ dimOk t g j := by
  unfold stepSucceeds dimOk complyStep innerUpdate
  cases hsi : g.strideIndex j with
  | none =>
    rw [← bcastMatch_true_iff, ← size0Match_true_iff]
    by_cases hb : bcastMatch t g j = true <;>
      by_cases h0 : size0Match t g j = true <;>
        simp [hb, h0]
  | some s =>
    rw [← bcastMatch_true_iff, ← size0Match_true_iff]
    by_cases hsov : strideOrderViolation t (innerDimAt t g j) s j = true
    · cases hcc : contigCheck t g (innerDimAt t g j) s j <;>
        simp [hsov, hcc]
    · have hsov' : strideOrderViolation t (innerDimAt t g j) s j = false :=
        Bool.eq_false_iff.mpr hsov
      cases hcc : contigCheck t g (innerDimAt t g j) s j <;>
        by_cases hb : bcastMatch t g j = true <;>
          by_cases h0 : size0Match t g j = true <;>
            simp [hsov', hcc, hb, h0]

lemma complyLoop_eq_true_iff (t : RTensor) (g : GuardTensorType) :
    ∀ k j, complyLoop t g k j (innerDimAt t g j) = some true ↔
      ∀ m, m < k → stepSucceeds t g (j + m) := by
  intro k
  induction k with
  | zero => intro j; simp [complyLoop]
  | succ k ih =>
    intro j
    rw [complyLoop]
    cases hstep : complyStep t g j (innerDimAt t g j) with
    | retFalse =>
      refine iff_of_false (by simp) fun hall => ?_
      have h0 := hall 0 (Nat.succ_pos k)
      rw [Nat.add_zero, stepSucceeds, hstep] at h0
      exact absurd h0 (by simp)
    | trip =>
      refine iff_of_false (by simp) fun hall => ?_
      have h0 := hall 0 (Nat.succ_pos k)
      rw [Nat.add_zero, stepSucceeds, hstep] at h0
      exact absurd h0 (by simp)
    | next inner2 =>
      have hval : inner2 = innerUpdate t g j (innerDimAt t g j) := by
        revert hstep
        unfold complyStep
        cases hsi : g.strideIndex j with
        | none =>
          by_cases hb : bcastMatch t g j = true <;>
            by_cases h0 : size0Match t g j = true <;>
              simp [hb, h0, innerUpdate, hsi] <;> intro h <;> exact h.symm
        | some s =>
          by_cases hsov : strideOrderViolation t (innerDimAt t g j) s j = true
          · simp [hsov]
          · have hsov' := Bool.eq_false_iff.mpr hsov
            cases hcc : contigCheck t g (innerDimAt t g j) s j <;>
              by_cases hb : bcastMatch t g j = true <;>
                by_cases h0 : size0Match t g j = true <;>
                  simp [hsov', hcc, hb, h0] <;> intro h <;> exact h.symm
      have hsucc : stepSucceeds t g j := by
        rw [stepSucceeds, hstep, hval]
      have hnext : innerDimAt t g (j + 1) = inner2 := by
        rw [innerDimAt, hval]
      rw [← hnext, ih (j + 1)]
      constructor
      · intro hall m hm
        cases m with
        | zero => simpa using hsucc
        | succ m =>
          have h2 := hall m (Nat.lt_of_succ_lt_succ hm)
          have he : j + 1 + m = j + (m + 1) := by omega
          rwa [he] at h2
      · intro hall m hm
        have h2 := hall (m + 1) (Nat.succ_lt_succ hm)
        have he : j + (m + 1) = j + 1 + m := by omega
        rwa [he] at h2

lemma contigCheck_eq_trip_iff (t : RTensor) (g : GuardTensorType)
    (inner_dim : Int) (s j : ℕ) :
    contigCheck t g inner_dim s j = CheckRes.trip ↔
      (g.contiguous j = some true ∧ j ≠ 0 ∧
       (t.sizeAt s ≠ 1 ∧ t.strideAt s ≠ 1) ∧
       (g.strideIndex (j - 1)).isSome = false) := by
  unfold contigCheck
  split_ifs <;> simp_all

lemma contigCheck_ne_trip (t : RTensor) (g : GuardTensorType)
    (hwf : ∀ j, g.contiguous j = some true → j ≠ 0 →
      (g.strideIndex (j - 1)).isSome)
    (inner_dim : Int) (s j : ℕ) :
    contigCheck t g inner_dim s j ≠ CheckRes.trip := by
  rw [Ne, contigCheck_eq_trip_iff]
  rintro ⟨hc, hj, _, hns⟩
  rw [hwf j hc hj] at hns
  exact absurd hns (by simp)

lemma complyLoop_ne_none (t : RTensor) (g : GuardTensorType)
    (hwf : ∀ j, g.contiguous j = some true → j ≠ 0 →
      (g.strideIndex (j - 1)).isSome) :
    ∀ k j inner_dim, complyLoop t g k j inner_dim ≠ none := by
  intro k
  induction k with
  | zero => intro j inner_dim; simp [complyLoop]
  | succ k ih =>
    intro j inner_dim
    rw [complyLoop]
    cases hstep : complyStep t g j inner_dim with
    | retFalse => simp
    | next inner2 => exact ih (j + 1) inner2
    | trip =>
      exfalso
      revert hstep
      unfold complyStep
      cases hsi : g.strideIndex j with
      | none =>
        by_cases hb : bcastMatch t g j = true <;>
          by_cases h0 : size0Match t g j = true <;> simp [hb, h0]
      | some s =>
        by_cases hsov : strideOrderViolation t inner_dim s j = true
        · simp [hsov]
        · have hsov' := Bool.eq_false_iff.mpr hsov
          have htrip := contigCheck_ne_trip t g hwf inner_dim s j
          cases hcc : contigCheck t g inner_dim s j <;>
            by_cases hb : bcastMatch t g j = true <;>
              by_cases h0 : size0Match t g j = true <;>
                simp_all [hsov', hcc, hb, h0]

lemma headerMismatch_false_iff (t : RTensor) (g : GuardTensorType)
    (gradMode : Bool) :
    headerMismatch t g gradMode = false ↔
      (g.dim = t.ndimension ∧
       (∀ x, g.scalarType = some x → x = t.scalarType) ∧
       (∀ x, g.device = some x → x = t.device) ∧
       (∀ b, g.requiresGrad = some b → b = (t.requires_grad && gradMode))) := by
  unfold headerMismatch
  cases hs : g.scalarType <;> cases hd : g.device <;>
    cases hr : g.requiresGrad <;> simp [hs, hd, hr, and_assoc]


/-- C4: characterization of `complyWith` (under the well-formedness of
profiled guard types that prevents the internal assertion at
interface.cpp:320 from firing): it returns true exactly when the rank,
scalar-type, device and effective requires-grad checks, and for every
dimension the stride-order, contiguity, broadcast (size-1) and size-0
checks all pass; and it returns false whenever the header disagrees or
any dimension's size-1 or size-0 status disagrees. -/
theorem c4_complyWith_spec (t : RTensor) (g : GuardTensorType)
    (gradMode : Bool)
    (hwf : ∀ j, g.contiguous j = some true → j ≠ 0 →
      (g.strideIndex (j - 1)).isSome) :
    (complyWith t g gradMode = some true ↔
      (g.dim = t.ndimension ∧
       (∀ x, g.scalarType = some x → x = t.scalarType) ∧
       (∀ x, g.device = some x → x = t.device) ∧
       (∀ b, g.requiresGrad = some b → b = (t.requires_grad && gradMode)) ∧
       ∀ j, j < g.dim → dimOk t g j)) ∧
    (g.dim ≠ t.ndimension → complyWith t g gradMode = some false) ∧
    (∀ x, g.scalarType = some x → x ≠ t.scalarType →
      complyWith t g gradMode = some false) ∧
    (∀ x, g.device = some x → x ≠ t.device →
      complyWith t g gradMode = some false) ∧
    (∀ b, g.requiresGrad = some b → b ≠ (t.requires_grad && gradMode) →
      complyWith t g gradMode = some false) ∧
    (∀ j, j < g.dim → ¬((g.sizes j = some 1) ↔ t.sizeAt j = 1) →
      complyWith t g gradMode = some false) ∧
    (∀ j, j < g.dim → ¬((g.sizes j = some 0) ↔ t.sizeAt j = 0) →
      complyWith t g gradMode = some false) := by
  have hloop :
      complyLoop t g g.dim 0 (-1) = some true ↔
        ∀ j, j < g.dim → stepSucceeds t g j := by
    have h0 : innerDimAt t g 0 = -1 := rfl
    rw [← h0, complyLoop_eq_true_iff t g g.dim 0]
    constructor
    · intro h j hj
      have := h j hj
      simpa using this
    · intro h m hm
      have := h m hm
      simpa using this
  have hfalse_of_mismatch :
      ∀ j, j < g.dim → ¬ dimOk t g j →
        complyWith t g gradMode = some false := by
    intro j hj hnd
    unfold complyWith
    by_cases hh : headerMismatch t g gradMode = true
    · simp [hh]
    · have hh' : headerMismatch t g gradMode = false :=
        Bool.eq_false_iff.mpr hh
      simp only [hh', Bool.false_eq_true, if_false]
      cases hres : complyLoop t g g.dim 0 (-1) with
      | none => exact absurd hres (complyLoop_ne_none t g hwf g.dim 0 (-1))
      | some b =>
        cases b with
        | false => rfl
        | true =>
          exfalso
          have hall := hloop.mp hres
          exact hnd ((stepSucceeds_iff t g j).mp (hall j hj))
  refine ⟨?_, ?_, ?_, ?_, ?_, ?_, ?_⟩
  · unfold complyWith
    by_cases hh : headerMismatch t g gradMode = true
    · simp only [hh, if_true]
      constructor
      · intro h
        exact absurd h (by simp)
      · intro hprops
        exfalso
        have hfalse := (headerMismatch_false_iff t g gradMode).mpr
          ⟨hprops.1, hprops.2.1, hprops.2.2.1, hprops.2.2.2.1⟩
        rw [hfalse] at hh
        exact Bool.false_ne_true hh
    · have hh' : headerMismatch t g gradMode = false :=
        Bool.eq_false_iff.mpr hh
      have hprops := (headerMismatch_false_iff t g gradMode).mp hh'
      simp only [hh', Bool.false_eq_true, if_false]
      rw [hloop]
      constructor
      · intro hall
        exact ⟨hprops.1, hprops.2.1, hprops.2.2.1, hprops.2.2.2,
          fun j hj => (stepSucceeds_iff t g j).mp (hall j hj)⟩
      · intro hprops2 j hj
        exact (stepSucceeds_iff t g j).mpr (hprops2.2.2.2.2 j hj)
  · intro hdim
    have hh : headerMismatch t g gradMode = true := by
      simp [headerMismatch, hdim]
    simp [complyWith, hh]
  · intro x hx hne
    have hh : headerMismatch t g gradMode = true := by
      simp [headerMismatch, hx, hne]
    simp [complyWith, hh]
  · intro x hx hne
    have hh : headerMismatch t g gradMode = true := by
      simp [headerMismatch, hx, hne]
    simp [complyWith, hh]
  · intro b hb hne
    have hh : headerMismatch t g gradMode = true := by
      simp [headerMismatch, hb, hne]
    simp [complyWith, hh]
  · intro j hj hmis
    exact hfalse_of_mismatch j hj fun hd => hmis hd.1
  · intro j hj hmis
    exact hfalse_of_mismatch j hj fun hd => hmis hd.2.1

/-- Witness for C4: a rank-1 tensor of size 2 against a guard profiled
with size 1 at dimension 0 (a broadcast-status mismatch) fails the
guard. -/
theorem c4_complyWith_spec_witness :
    complyWith ⟨[2], [1], 0, 0, false⟩
      ⟨1, none, none, none, (fun _ => some 1), (fun _ => none),
        (fun _ => none)⟩ true = some false :=
  (c4_complyWith_spec ⟨[2], [1], 0, 0, false⟩
      ⟨1, none, none, none, (fun _ => some 1), (fun _ => none),
        (fun _ => none)⟩ true
      (fun j hc _ => by simp at hc)).2.2.2.2.2.1 0 (by decide)
    (by simp [RTensor.sizeAt])

end CudaFusionGuard

/-!
Embedding of `inferViewShape` (interface.cpp:478-505) and
`checkViewGuard` (interface.cpp:539-584).

`TORCH_INTERNAL_ASSERT` failures (a second dynamic `-1` dimension, or a
non-positive view size) are modelled as `none`.  `std::queue::front()`
on an empty queue — undefined behaviour in C++, reachable only when the
view constraint has more `-1` entries than the tensor constraint — is
modelled as a default value of `0`.
-/

namespace ViewGuard

/-- The scan loop of `inferViewShape`: walks `view_sizes` recording the
unique dynamic (`-1`) index and the product of the non-dynamic sizes;
asserts that at most one dimension is dynamic and that every
non-dynamic size is positive. -/
def inferLoop : List Int → Option ℕ → ℕ → Int → Option (Option ℕ × Int)
  | [], dyn, _, p => some (dyn, p)
  | v :: rest, dyn, idx, p =>
    if v = -1 then
      match dyn with
      | some _ => Option.none
      | Option.none => inferLoop rest (some idx) (idx + 1) p
    else if 0 < v then inferLoop rest dyn (idx + 1) (p * v)
    else Option.none

/-- `inferViewShape` (interface.cpp:478-505): scans `view_sizes`, takes
the product of `tensor_sizes` (`std::accumulate` from 1), fails
(returns `false`) when that product is not divisible by the product of
the non-dynamic view sizes, and otherwise materialises the dynamic
dimension in `view_sizes` (the returned list models the in-place update
of the shared `c10::List`) and returns `true`. -/
def inferViewShape (tensor_sizes view_sizes : List Int) :
    Option (Bool × List Int) :=
  match inferLoop view_sizes Option.none 0 1 with
  | Option.none => Option.none
  | some (dyn, view_size_num_elements) =>
    let kNumElements := tensor_sizes.prod
    if kNumElements % view_size_num_elements ≠ 0 then
      some (false, view_sizes)
    else
      match dyn with
      | Option.none => some (true, view_sizes)
      | some i =>
        some (true, view_sizes.set i (kNumElements / view_size_num_elements))

/-- Step 2 of `checkViewGuard` (interface.cpp:556-564), on the zipped
`(size, constraint)` pairs: a `-1` constraint queues the actual size, a
static constraint must equal the actual size (else `return false`,
modelled `none`), and the size product is accumulated. -/
def tensorLoop : List (Int × Int) → List Int → Int → Option (List Int × Int)
  | [], q, p => some (q, p)
  | (s, c) :: rest, q, p =>
    if c = -1 then tensorLoop rest (q ++ [s]) (p * s)
    else if c ≠ s then Option.none
    else tensorLoop rest q (p * s)

/-- Step 3 of `checkViewGuard` (interface.cpp:566-579), on the zipped
`(view_size, constraint)` pairs: the effective size is the queue front
for a `-1` constraint (popped afterwards) and the constraint itself
otherwise; it must equal the actual view size, and the view-size
product is accumulated. -/
def viewLoop : List (Int × Int) → List Int → Int → Option Int
  | [], _, p => some p
  | (v, c) :: rest, q, p =>
    let dynamic_size := if c = -1 then q.headD 0 else c
    if dynamic_size ≠ v then Option.none
    else viewLoop rest (if c = -1 then q.tail else q) (p * dynamic_size)

/-- `checkViewGuard` (interface.cpp:539-584): dimension-count checks on
both constraint lists, the tensor static check, the view-sizes static
check, and finally the view invariant
`tensor_size_product == view_size_product`. -/
def checkViewGuard
    (tensor_sizes view_sizes tensor_constraint view_sizes_constraint :
      List Int) : Bool :=
  if tensor_constraint.length ≠ tensor_sizes.length ∨
      view_sizes_constraint.length ≠ view_sizes.length then false
  else
    match tensorLoop (tensor_sizes.zip tensor_constraint) [] 1 with
    | Option.none => false
    | some (q, tensor_size_product) =>
      match viewLoop (view_sizes.zip view_sizes_constraint) q 1 with
      | Option.none => false
      | some view_size_product =>
        decide (tensor_size_product = view_size_product)

lemma tensorLoop_prod :
    ∀ (l : List (Int × Int)) (q : List Int) (p : Int) (q' : List Int)
      (tp : Int), tensorLoop l q p = some (q', tp) →
      tp = p * (l.map Prod.fst).prod := by
  intro l
  induction l with
  | nil =>
    intro q p q' tp h
    simp [tensorLoop] at h
    simp [h.2]
  | cons hd tl ih =>
    intro q p q' tp h
    obtain ⟨s, c⟩ := hd
    rw [tensorLoop] at h
    by_cases hc : c = -1
    · rw [if_pos hc] at h
      have := ih _ _ _ _ h
      simp [this, mul_assoc]
    · rw [if_neg hc] at h
      by_cases hcs : c ≠ s
      · rw [if_pos hcs] at h
        exact absurd h (by simp)
      · rw [if_neg hcs] at h
        have := ih _ _ _ _ h
        simp [this, mul_assoc]

lemma viewLoop_prod :
    ∀ (l : List (Int × Int)) (q : List Int) (p : Int) (vp : Int),
      viewLoop l q p = some vp → vp = p * (l.map Prod.fst).prod := by
  intro l
  induction l with
  | nil =>
    intro q p vp h
    simp [viewLoop] at h
    simp [h]
  | cons hd tl ih =>
    intro q p vp h
    obtain ⟨v, c⟩ := hd
    rw [viewLoop] at h
    by_cases hd1 : (if c = -1 then q.headD 0 else c) ≠ v
    · rw [if_pos hd1] at h
      exact absurd h (by simp)
    · rw [if_neg hd1] at h
      push_neg at hd1
      have := ih _ _ _ h
      rw [this, hd1]
      simp [mul_assoc]

lemma tensorLoop_none_of_bad :
    ∀ (l : List (Int × Int)) (q : List Int) (p : Int),
      (∃ sc ∈ l, sc.2 ≠ -1 ∧ sc.2 ≠ sc.1) →
      tensorLoop l q p = Option.none := by
  intro l
  induction l with
  | nil => intro q p h; simp at h
  | cons hd tl ih =>
    intro q p h
    obtain ⟨s, c⟩ := hd
    rw [tensorLoop]
    rcases h with ⟨sc, hmem, hne1, hnes⟩
    rcases List.mem_cons.mp hmem with heq | hmem'
    · subst heq
      simp only at hne1 hnes
      rw [if_neg hne1, if_pos hnes]
    · by_cases hc : c = -1
      · rw [if_pos hc]
        exact ih _ _ ⟨sc, hmem', hne1, hnes⟩
      · rw [if_neg hc]
        by_cases hcs : c ≠ s
        · rw [if_pos hcs]
        · rw [if_neg hcs]
          exact ih _ _ ⟨sc, hmem', hne1, hnes⟩

lemma viewLoop_none_of_bad :
    ∀ (l : List (Int × Int)) (q : List Int) (p : Int),
      (∃ vc ∈ l, vc.2 ≠ -1 ∧ vc.2 ≠ vc.1) →
      viewLoop l q p = Option.none := by
  intro l
  induction l with
  | nil => intro q p h; simp at h
  | cons hd tl ih =>
    intro q p h
    obtain ⟨v, c⟩ := hd
    rw [viewLoop]
    rcases h with ⟨vc, hmem, hne1, hnev⟩
    rcases List.mem_cons.mp hmem with heq | hmem'
    · subst heq
      simp only at hne1 hnev
      rw [if_pos]
      simp only [if_neg hne1]
      exact hnev
    · by_cases hd1 : (if c = -1 then q.headD 0 else c) ≠ v
      · rw [if_pos hd1]
      · rw [if_neg hd1]
        exact ih _ _ ⟨vc, hmem', hne1, hnev⟩

/-- C6: `checkViewGuard` returns true only if the product of
`tensor_sizes` equals the product of the view sizes (the view
invariant); it returns false whenever either constraint list's length
differs from its size list's length, or any non-dynamic (not `-1`)
constraint entry differs from the corresponding actual size. -/
theorem c6_checkViewGuard_spec
    (tensor_sizes view_sizes tensor_constraint view_sizes_constraint :
      List Int) :
    (checkViewGuard tensor_sizes view_sizes tensor_constraint
        view_sizes_constraint = true →
      tensor_sizes.prod = view_sizes.prod) ∧
    (tensor_constraint.length ≠ tensor_sizes.length ∨
        view_sizes_constraint.length ≠ view_sizes.length →
      checkViewGuard tensor_sizes view_sizes tensor_constraint
        view_sizes_constraint = false) ∧
    (∀ idx, idx < tensor_sizes.length →
      tensor_constraint.getD idx 0 ≠ -1 →
      tensor_constraint.getD idx 0 ≠ tensor_sizes.getD idx 0 →
      checkViewGuard tensor_sizes view_sizes tensor_constraint
        view_sizes_constraint = false) ∧
    (∀ idx, idx < view_sizes.length →
      view_sizes_constraint.getD idx 0 ≠ -1 →
      view_sizes_constraint.getD idx 0 ≠ view_sizes.getD idx 0 →
      checkViewGuard tensor_sizes view_sizes tensor_constraint
        view_sizes_constraint = false) := by
  refine ⟨?_, ?_, ?_, ?_⟩
  · intro h
    unfold checkViewGuard at h
    by_cases hlen : tensor_constraint.length ≠ tensor_sizes.length ∨
        view_sizes_constraint.length ≠ view_sizes.length
    · rw [if_pos hlen] at h
      exact absurd h (by simp)
    · rw [if_neg hlen] at h
      push_neg at hlen
      cases htl : tensorLoop (tensor_sizes.zip tensor_constraint) [] 1 with
      | none => rw [htl] at h; exact absurd h (by simp)
      | some qp =>
        obtain ⟨q, tp⟩ := qp
        rw [htl] at h
        have h2 : (match viewLoop (view_sizes.zip view_sizes_constraint) q 1 with
            | Option.none => false
            | some view_size_product =>
              decide (tp = view_size_product)) = true := h
        cases hvl : viewLoop (view_sizes.zip view_sizes_constraint) q 1 with
        | none => rw [hvl] at h2; exact absurd h2 (by simp)
        | some vp =>
          rw [hvl] at h2
          have heq : tp = vp := by simpa using h2
          have h1 := tensorLoop_prod _ _ _ _ _ htl
          have h2 := viewLoop_prod _ _ _ _ hvl
          have hm1 : (tensor_sizes.zip tensor_constraint).map Prod.fst =
              tensor_sizes :=
            List.map_fst_zip _ _ (le_of_eq hlen.1.symm)
          have hm2 : (view_sizes.zip view_sizes_constraint).map Prod.fst =
              view_sizes :=
            List.map_fst_zip _ _ (le_of_eq hlen.2.symm)
          rw [hm1, one_mul] at h1
          rw [hm2, one_mul] at h2
          rw [← h1, ← h2, heq]
  · intro hlen
    unfold checkViewGuard
    rw [if_pos hlen]
  · intro idx hidx hne1 hnes
    unfold checkViewGuard
    by_cases hlen : tensor_constraint.length ≠ tensor_sizes.length ∨
        view_sizes_constraint.length ≠ view_sizes.length
    · rw [if_pos hlen]
    · rw [if_neg hlen]
      push_neg at hlen
      have hidx2 : idx < tensor_constraint.length := by omega
      have hmem : (tensor_sizes.getD idx 0, tensor_constraint.getD idx 0) ∈
          tensor_sizes.zip tensor_constraint := by
        have hz : idx < (tensor_sizes.zip tensor_constraint).length := by
          rw [List.length_zip]; omega
        have : (tensor_sizes.zip tensor_constraint).get ⟨idx, hz⟩ =
            (tensor_sizes.getD idx 0, tensor_constraint.getD idx 0) := by
          rw [List.get_zip]
          rw [List.getD_eq_get _ _ hidx, List.getD_eq_get _ _ hidx2]
        rw [← this]
        exact List.get_mem _ _ _
      rw [tensorLoop_none_of_bad _ [] 1
        ⟨(tensor_sizes.getD idx 0, tensor_constraint.getD idx 0), hmem,
          hne1, hnes⟩]
  · intro idx hidx hne1 hnes
    unfold checkViewGuard
    by_cases hlen : tensor_constraint.length ≠ tensor_sizes.length ∨
        view_sizes_constraint.length ≠ view_sizes.length
    · rw [if_pos hlen]
    · rw [if_neg hlen]
      push_neg at hlen
      have hidx2 : idx < view_sizes_constraint.length := by omega
      have hmem : (view_sizes.getD idx 0, view_sizes_constraint.getD idx 0) ∈
          view_sizes.zip view_sizes_constraint := by
        have hz : idx < (view_sizes.zip view_sizes_constraint).length := by
          rw [List.length_zip]; omega
        have : (view_sizes.zip view_sizes_constraint).get ⟨idx, hz⟩ =
            (view_sizes.getD idx 0, view_sizes_constraint.getD idx 0) := by
          rw [List.get_zip]
          rw [List.getD_eq_get _ _ hidx, List.getD_eq_get _ _ hidx2]
        rw [← this]
        exact List.get_mem _ _ _
      cases htl : tensorLoop (tensor_sizes.zip tensor_constraint) [] 1 with
      | none => rfl
      | some qp =>
        obtain ⟨q, tp⟩ := qp
        show (match viewLoop (view_sizes.zip view_sizes_constraint) q 1 with
            | Option.none => false
            | some view_size_product =>
              decide (tp = view_size_product)) = false
        rw [viewLoop_none_of_bad _ q 1
          ⟨(view_sizes.getD idx 0, view_sizes_constraint.getD idx 0), hmem,
            hne1, hnes⟩]

/-- Witness for C6: sizes `[2, 3]` against constraint `[2, 4]` (a
static mismatch at index 1) fail the guard. -/
theorem c6_checkViewGuard_spec_witness :
    checkViewGuard [2, 3] [6] [2, 4] [6] = false :=
  (c6_checkViewGuard_spec [2, 3] [6] [2, 4] [6]).2.2.1 1 (by decide)
    (by decide) (by decide)

end ViewGuard

/-!
Embedding of the interpreter operators registered by interface.cpp
(`prim::CudaFusionSizeEq`, `prim::CudaFusionGuard`,
`prim::CudaFusionViewGuard`, `prim::CudaFusionIvalGuard`,
`prim::infer_squeeze_size`).

The interpreter stack is a list of `IValue`s with the top at the end,
matching the C++ vector; `last(stack, n)` / `drop(stack, n)` /
`push(stack, v)` are `stackLast` / `stackDrop` / `stackPush`.  `IValue`
is restricted to the payloads these operators inspect, and
`IValue::equals` is structural equality on them.  An operator is a
function from stack to stack; `none` models a `TORCH_INTERNAL_ASSERT`
failure.  The global `cuda_fusion_guard_mode` flag and
`at::GradMode::is_enabled()` are passed as the booleans `guard_mode`
and `gradMode`.
-/

namespace JitOps

/-- The interpreter values inspected by these operators. -/
inductive IValue where
  | none : IValue
  | bool : Bool → IValue
  | int : Int → IValue
  | intList : List Int → IValue
  | tensor : CudaFusionGuard.RTensor → IValue
deriving DecidableEq

def IValue.isNone : IValue → Bool
  | IValue.none => true
  | _ => false

/-- The interpreter stack, bottom first, top at the end. -/
abbrev Stack := List IValue

/-- `last(stack, n)`: the top `n` entries, bottom-most first. -/
def stackLast (s : Stack) (n : ℕ) : List IValue :=
  List.drop (List.length s - n) s

/-- `drop(stack, n)`: remove the top `n` entries. -/
def stackDrop (s : Stack) (n : ℕ) : Stack :=
  List.take (List.length s - n) s

/-- `push(stack, v)`. -/
def stackPush (s : Stack) (v : IValue) : Stack :=
  List.append s [v]

/-- `pop(stack)`: the top entry and the rest. -/
def stackPop (s : Stack) : Option (IValue × Stack) :=
  match List.getLast? s with
  | some v => some (v, List.dropLast s)
  | Option.none => Option.none

/-- The element-wise loop of `prim::CudaFusionSizeEq`
(interface.cpp:405-410): `ret` stays true unless some position's
size-1 status differs between `inp` and `ref`. -/
def sizeEqLoop (inp ref : List Int) : Bool :=
  List.all (inp.zip ref) fun p => decide (p.1 = 1) == decide (p.2 = 1)

/-- `prim::CudaFusionSizeEq` (interface.cpp:372-421): pops two inputs;
with guarding disabled pushes `true`; otherwise asserts the reference
is an int list, handles the empty-reference case (`inputs[0]` must be
`None`), and compares lengths and the per-position size-1 statuses. -/
def cudaFusionSizeEqOp (guard_mode : Bool) (s : Stack) : Option Stack :=
  let inputs := stackLast s 2
  let s2 := stackDrop s 2
  if !guard_mode then some (stackPush s2 (IValue.bool true))
  else
    match inputs.getD 1 IValue.none with
    | IValue.intList ref =>
      if ref.isEmpty then
        some (stackPush s2 (IValue.bool (inputs.getD 0 IValue.none).isNone))
      else
        match inputs.getD 0 IValue.none with
        | IValue.intList inp =>
          if inp.length ≠ ref.length then
            some (stackPush s2 (IValue.bool false))
          else some (stackPush s2 (IValue.bool (sizeEqLoop inp ref)))
        | _ => some (stackPush s2 (IValue.bool false))
    | _ => Option.none

/-- The per-input loop of `prim::CudaFusionGuard`
(interface.cpp:454-466): asserts each input is a tensor and checks it
with `complyWith`; the first non-complying input yields `false`. -/
def guardLoop (gradMode : Bool) :
    List (CudaFusionGuard.GuardTensorType × IValue) → Option Bool
  | [] => some true
  | (ty, IValue.tensor t) :: rest =>
    match CudaFusionGuard.complyWith t ty gradMode with
    | some true => guardLoop gradMode rest
    | some false => some false
    | Option.none => Option.none
  | _ => Option.none

/-- `prim::CudaFusionGuard` (interface.cpp:435-475): pops as many
inputs as the node's `types` attribute lists; with guarding disabled
pushes `true`; otherwise checks every input tensor against its
profiled type and pushes the conjunction. -/
def cudaFusionGuardOp (guard_mode gradMode : Bool)
    (types : List CudaFusionGuard.GuardTensorType) (s : Stack) :
    Option Stack :=
  let num_inputs := types.length
  let inputs := stackLast s num_inputs
  let s2 := stackDrop s num_inputs
  if !guard_mode then some (stackPush s2 (IValue.bool true))
  else
    match guardLoop gradMode (types.zip inputs) with
    | some b => some (stackPush s2 (IValue.bool b))
    | Option.none => Option.none

/-- `prim::CudaFusionViewGuard` (interface.cpp:626-689): asserts the
four inputs are int lists, drops them, runs `inferViewShape` (pushing
`false` on its failure, before the guard-mode test), then — with
guarding disabled — pushes `true`, and otherwise pushes the result of
`checkViewGuard` on the materialised view sizes (the shared
`c10::List` updated in place by `inferViewShape`). -/
def cudaFusionViewGuardOp (guard_mode : Bool) (s : Stack) : Option Stack :=
  let inputs := stackLast s 4
  match inputs.getD 0 IValue.none, inputs.getD 1 IValue.none,
      inputs.getD 2 IValue.none, inputs.getD 3 IValue.none with
  | IValue.intList tensor_sizes, IValue.intList profiled_view_sizes,
      IValue.intList tensor_constraint,
      IValue.intList view_sizes_constraint =>
    let s2 := stackDrop s 4
    match ViewGuard.inferViewShape tensor_sizes profiled_view_sizes with
    | Option.none => Option.none
    | some (false, _) => some (stackPush s2 (IValue.bool false))
    | some (true, view_sizes2) =>
      if !guard_mode then some (stackPush s2 (IValue.bool true))
      else some (stackPush s2 (IValue.bool
        (ViewGuard.checkViewGuard tensor_sizes view_sizes2
          tensor_constraint view_sizes_constraint)))
  | _, _, _, _ => Option.none

/-- `prim::CudaFusionIvalGuard` (interface.cpp:691-707): pops two
inputs; with guarding disabled pushes `true`; otherwise pushes
`inputs[0].equals(inputs[1])`. -/
def cudaFusionIvalGuardOp (guard_mode : Bool) (s : Stack) : Option Stack :=
  let inputs := stackLast s 2
  let s2 := stackDrop s 2
  if !guard_mode then some (stackPush s2 (IValue.bool true))
  else some (stackPush s2 (IValue.bool
    (decide (inputs.getD 0 IValue.none = inputs.getD 1 IValue.none))))

/-- The iterator loop of `prim::infer_squeeze_size`
(interface.cpp:867-873): at index `i`, erase the element if it is `1`
(staying at the same index, since `it` is stepped back and the for-loop
increment returns it to the erased position; the transient
before-begin iterator at the first element is pointer arithmetic with
no observable effect), otherwise advance. -/
def squeezeLoop (l : List Int) (i : ℕ) : List Int :=
  if h : i < l.length then
    if l.get ⟨i, h⟩ = 1 then squeezeLoop (l.eraseIdx i) i
    else squeezeLoop l (i + 1)
  else l
termination_by l.length - i
decreasing_by
  · have : (l.eraseIdx i).length = l.length - 1 := by
      rw [List.length_eraseIdx]
      simp [h]
    omega
  · omega

/-- `prim::infer_squeeze_size` (interface.cpp:860-878): pops an int
list, runs the erase loop from the first position, and pushes the
result. -/
def inferSqueezeSizeOp (s : Stack) : Option Stack :=
  match stackPop s with
  | some (IValue.intList size, s2) =>
    some (stackPush s2 (IValue.intList (squeezeLoop size 0)))
  | _ => Option.none

lemma stackLast_append4 (st : Stack) (a b c d : IValue) :
    stackLast (List.append st [a, b, c, d]) 4 = [a, b, c, d] := by
  unfold stackLast
  show List.drop ((st ++ [a, b, c, d]).length - 4) (st ++ [a, b, c, d]) = _
  rw [List.length_append]
  have h : st.length + [a, b, c, d].length - 4 = st.length := by simp
  rw [h, List.drop_left]

lemma stackDrop_append4 (st : Stack) (a b c d : IValue) :
    stackDrop (List.append st [a, b, c, d]) 4 = st := by
  unfold stackDrop
  show List.take ((st ++ [a, b, c, d]).length - 4) (st ++ [a, b, c, d]) = _
  rw [List.length_append]
  have h : st.length + [a, b, c, d].length - 4 = st.length := by simp
  rw [h, List.take_left]

lemma stackPop_push (s : Stack) (v : IValue) :
    stackPop (stackPush s v) = some (v, s) := by
  unfold stackPop stackPush
  show (match List.getLast? (s ++ [v]) with
    | some w => some (w, List.dropLast (s ++ [v]))
    | Option.none => Option.none) = _
  rw [List.getLast?_concat, List.dropLast_concat]

/-- C9: with `cuda_fusion_guard_mode` false, `prim::CudaFusionSizeEq`,
`prim::CudaFusionGuard` and `prim::CudaFusionIvalGuard` pop their
declared inputs and push `true` regardless of the input values, and
`prim::CudaFusionViewGuard` pushes `true` unless `inferViewShape`
fails its divisibility check, in which case it pushes `false` even
with guarding disabled. -/
theorem c9_guards_disabled_mode
    (s : Stack) (gradMode : Bool)
    (types : List CudaFusionGuard.GuardTensorType) (st : Stack)
    (ts vs tc vc : List Int) (vsz : List Int) :
    cudaFusionSizeEqOp false s =
      some (stackPush (stackDrop s 2) (IValue.bool true)) ∧
    cudaFusionGuardOp false gradMode types s =
      some (stackPush (stackDrop s types.length) (IValue.bool true)) ∧
    cudaFusionIvalGuardOp false s =
      some (stackPush (stackDrop s 2) (IValue.bool true)) ∧
    (ViewGuard.inferViewShape ts vs = some (true, vsz) →
      cudaFusionViewGuardOp false
          (List.append st
            [IValue.intList ts, IValue.intList vs,
             IValue.intList tc, IValue.intList vc]) =
        some (stackPush st (IValue.bool true))) ∧
    (ViewGuard.inferViewShape ts vs = some (false, vsz) →
      cudaFusionViewGuardOp false
          (List.append st
            [IValue.intList ts, IValue.intList vs,
             IValue.intList tc, IValue.intList vc]) =
        some (stackPush st (IValue.bool false))) := by
  refine ⟨rfl, rfl, rfl, ?_, ?_⟩
  · intro hinfer
    unfold cudaFusionViewGuardOp
    rw [stackLast_append4]
    show (match ViewGuard.inferViewShape ts vs with
      | Option.none => Option.none
      | some (false, _) => some (stackPush (stackDrop (List.append st
          [IValue.intList ts, IValue.intList vs,
           IValue.intList tc, IValue.intList vc]) 4) (IValue.bool false))
      | some (true, view_sizes2) =>
        if !false then some (stackPush (stackDrop (List.append st
            [IValue.intList ts, IValue.intList vs,
             IValue.intList tc, IValue.intList vc]) 4) (IValue.bool true))
        else some (stackPush (stackDrop (List.append st
            [IValue.intList ts, IValue.intList vs,
             IValue.intList tc, IValue.intList vc]) 4) (IValue.bool
          (ViewGuard.checkViewGuard ts view_sizes2 tc vc)))) = _
    rw [hinfer, stackDrop_append4]
    rfl
  · intro hinfer
    unfold cudaFusionViewGuardOp
    rw [stackLast_append4]
    show (match ViewGuard.inferViewShape ts vs with
      | Option.none => Option.none
      | some (false, _) => some (stackPush (stackDrop (List.append st
          [IValue.intList ts, IValue.intList vs,
           IValue.intList tc, IValue.intList vc]) 4) (IValue.bool false))
      | some (true, view_sizes2) =>
        if !false then some (stackPush (stackDrop (List.append st
            [IValue.intList ts, IValue.intList vs,
             IValue.intList tc, IValue.intList vc]) 4) (IValue.bool true))
        else some (stackPush (stackDrop (List.append st
            [IValue.intList ts, IValue.intList vs,
             IValue.intList tc, IValue.intList vc]) 4) (IValue.bool
          (ViewGuard.checkViewGuard ts view_sizes2 tc vc)))) = _
    rw [hinfer, stackDrop_append4]

/-- Witness for C9: a stack of four singleton lists with a compatible
view shape; with guarding disabled the view guard pushes `true`. -/
theorem c9_guards_disabled_mode_witness :
    cudaFusionViewGuardOp false
        (List.append []
          [IValue.intList [2, 3], IValue.intList [6],
           IValue.intList [2, 3], IValue.intList [6]]) =
      some (stackPush [] (IValue.bool true)) :=
  (c9_guards_disabled_mode [] false [] [] [2, 3] [6] [2, 3] [6]
      [6]).2.2.2.1 (by rfl)

lemma filterNe1_cons_of_ne (a : Int) (l : List Int) (h1 : a ≠ 1) :
    (a :: l).filter (fun x => decide (x ≠ 1)) =
      a :: l.filter (fun x => decide (x ≠ 1)) := by
  simp [List.filter_cons, h1]

lemma filterNe1_cons_of_eq (a : Int) (l : List Int) (h1 : a = 1) :
    (a :: l).filter (fun x => decide (x ≠ 1)) =
      l.filter (fun x => decide (x ≠ 1)) := by
  simp [List.filter_cons, h1]

lemma squeezeLoop_eq_aux :
    ∀ (n : ℕ) (l : List Int) (i : ℕ), l.length - i ≤ n →
      squeezeLoop l i =
        l.take i ++ (l.drop i).filter (fun a => decide (a ≠ 1)) := by
  intro n
  induction n with
  | zero =>
    intro l i h
    have hi : ¬ i < l.length := by omega
    rw [squeezeLoop, dif_neg hi]
    rw [List.take_of_length_le (by omega), List.drop_eq_nil_of_le (by omega)]
    simp
  | succ n ih =>
    intro l i h
    rw [squeezeLoop]
    by_cases hi : i < l.length
    · rw [dif_pos hi]
      have hdrop : l.drop i = l.get ⟨i, hi⟩ :: l.drop (i + 1) :=
        List.drop_eq_getElem_cons hi
      by_cases h1 : l.get ⟨i, hi⟩ = 1
      · rw [if_pos h1]
        have hlen : (l.eraseIdx i).length - i ≤ n := by
          have he : (l.eraseIdx i).length = l.length - 1 := by
            rw [List.length_eraseIdx]
            simp [hi]
          omega
        rw [ih (l.eraseIdx i) i hlen]
        rw [List.eraseIdx_eq_take_drop_succ]
        have hlt : (l.take i).length = i := by
          rw [List.length_take]; omega
        rw [List.take_left' hlt, List.drop_left' hlt]
        rw [hdrop, filterNe1_cons_of_eq _ _ h1]
      · rw [if_neg h1]
        rw [ih l (i + 1) (by omega)]
        have htake : l.take (i + 1) = l.take i ++ [l.get ⟨i, hi⟩] := by
          rw [List.take_succ]
          congr 1
          rw [List.getElem?_eq_getElem hi]
          rfl
        rw [htake, hdrop, filterNe1_cons_of_ne _ _ h1, List.append_assoc]
        rfl
    · rw [dif_neg hi]
      rw [List.take_of_length_le (by omega), List.drop_eq_nil_of_le (by omega)]
      simp

lemma squeezeLoop_zero_eq (l : List Int) :
    squeezeLoop l 0 = l.filter (fun a => decide (a ≠ 1)) := by
  have h := squeezeLoop_eq_aux l.length l 0 (by omega)
  simpa using h

/-- C10: `prim::infer_squeeze_size` pops an int list and pushes the
list with every element equal to 1 removed, in order — including when
the first element is 1. -/
theorem c10_infer_squeeze_size (l : List Int) (s : Stack) :
    inferSqueezeSizeOp (stackPush s (IValue.intList l)) =
      some (stackPush s
        (IValue.intList (l.filter (fun a => decide (a ≠ 1))))) := by
  unfold inferSqueezeSizeOp
  rw [stackPop_push]
  show some (stackPush s (IValue.intList (squeezeLoop l 0))) = _
  rw [squeezeLoop_zero_eq]

end JitOps
